import Mathlib

/-!
Verification development for the parquet2 column codec and metadata layer.

The embedding follows `src/lib.rs` and `src/statistics/mod.rs`. Submodules
referenced there (`statistics/boolean.rs`, `statistics/primitive.rs`,
`statistics/binary.rs`, `statistics/fixed_len_binary.rs`, `schema`,
`metadata`, `serialization`, `read`, `write`) are not part of the source
tree; where a definition depends on them it is modelled from the spec and
carries a doc comment saying so.

Machine integers are embedded as `Nat`/`Int` with explicit ranges; byte
strings as `List Nat` with entries below 256; `f32`/`f64` values as their
bit patterns (no floating-point arithmetic occurs in any claim).
-/

namespace Parquet2

/-- The closed set of physical types
(`schema::types::PhysicalType`, shape fixed by the exhaustive matches in
`src/statistics/mod.rs` and by spec section 3). -/
inductive PhysicalType where
  | boolean
  | int32
  | int64
  | int96
  | float
  | double
  | byteArray
  | fixedLenByteArray (size : Nat)
  deriving DecidableEq

/-- Modelled from the spec: `ParquetType::from_physical(name, physical)`
(module `schema::types`, not in src/) pairs a field name with a physical
type. -/
structure ParquetType where
  name : String
  physicalType : PhysicalType
  deriving DecidableEq

/-- Modelled from the spec: `metadata::ColumnDescriptor` (not in src/);
constructor shape `ColumnDescriptor::new(type, max_def_level,
max_rep_level, path)` taken from its uses in `src/lib.rs`. -/
structure ColumnDescriptor where
  type : ParquetType
  maxDefLevel : Nat
  maxRepLevel : Nat
  path : List String
  deriving DecidableEq

/-- `descriptor.physical_type()` as used by `deserialize_statistics`. -/
def ColumnDescriptor.physicalType (d : ColumnDescriptor) : PhysicalType :=
  d.type.physicalType

/-- The raw wire statistics record (`parquet_format::Statistics`, the
opaque structured-metadata boundary of spec section 6): optional null and
distinct counts as signed 64-bit integers, optional min/max as byte
strings. -/
structure ParquetStatistics where
  null_count : Option Int
  distinct_count : Option Int
  min_value : Option (List Nat)
  max_value : Option (List Nat)
  deriving DecidableEq

/-- Little-endian 4-byte encoding of a natural number (low byte first). -/
def le4 (n : Nat) : List Nat :=
  [n % 256, n / 256 % 256, n / 65536 % 256, n / 16777216 % 256]

/-- Little-endian 8-byte encoding of a natural number. -/
def le8 (n : Nat) : List Nat :=
  le4 (n % 4294967296) ++ le4 (n / 4294967296)

/-- Recompose four little-endian bytes into a natural number. -/
def fromLe4 (b0 b1 b2 b3 : Nat) : Nat :=
  b0 + 256 * b1 + 65536 * b2 + 16777216 * b3

/-- Two's-complement encoding of a signed 32-bit value into 4 bytes. -/
def encodeI32 (v : Int) : List Nat :=
  le4 (v % 4294967296).toNat

/-- Decode 4 little-endian bytes as a signed 32-bit value. -/
def decodeI32 : List Nat → Option Int
  | [b0, b1, b2, b3] =>
    let u : Nat := fromLe4 b0 b1 b2 b3
    some (if u < 2147483648 then (u : Int) else (u : Int) - 4294967296)
  | _ => none

/-- Two's-complement encoding of a signed 64-bit value into 8 bytes. -/
def encodeI64 (v : Int) : List Nat :=
  le8 (v % 18446744073709551616).toNat

/-- Decode 8 little-endian bytes as a signed 64-bit value. -/
def decodeI64 : List Nat → Option Int
  | [b0, b1, b2, b3, b4, b5, b6, b7] =>
    let u : Nat := fromLe4 b0 b1 b2 b3 + 4294967296 * fromLe4 b4 b5 b6 b7
    some (if u < 9223372036854775808 then (u : Int) else (u : Int) - 18446744073709551616)
  | _ => none

/-- Encoding of an Int96 value (three 32-bit limbs, low limb first). -/
def encodeI96 (v : Nat × Nat × Nat) : List Nat :=
  le4 v.1 ++ le4 v.2.1 ++ le4 v.2.2

/-- Decode 12 bytes as an Int96 value (three 32-bit limbs). -/
def decodeI96 : List Nat → Option (Nat × Nat × Nat)
  | [b0, b1, b2, b3, b4, b5, b6, b7, b8, b9, b10, b11] =>
    some (fromLe4 b0 b1 b2 b3, fromLe4 b4 b5 b6 b7, fromLe4 b8 b9 b10 b11)
  | _ => none

/-- Encoding of an f32 value, represented by its bit pattern. -/
def encodeF32 (bits : Nat) : List Nat := le4 bits

/-- Decode 4 bytes as an f32 bit pattern. -/
def decodeF32 : List Nat → Option Nat
  | [b0, b1, b2, b3] => some (fromLe4 b0 b1 b2 b3)
  | _ => none

/-- Encoding of an f64 value, represented by its bit pattern. -/
def encodeF64 (bits : Nat) : List Nat := le8 bits

/-- Decode 8 bytes as an f64 bit pattern. -/
def decodeF64 : List Nat → Option Nat
  | [b0, b1, b2, b3, b4, b5, b6, b7] =>
    some (fromLe4 b0 b1 b2 b3 + 4294967296 * fromLe4 b4 b5 b6 b7)
  | _ => none

/-- Encoding of a boolean statistics bound as a single byte. -/
def encodeBool (b : Bool) : List Nat := [if b then 1 else 0]

/-- Decode a single byte as a boolean. -/
def decodeBool : List Nat → Option Bool
  | [0] => some false
  | [1] => some true
  | _ => none

/-- Modelled from the spec: `BooleanStatistics`
(`statistics/boolean.rs`, not in src/). Field shape taken from its uses in
`src/lib.rs`: optional null/distinct counts and optional boolean
min/max; no descriptor field. -/
structure BooleanStatistics where
  null_count : Option Nat
  distinct_count : Option Nat
  min_value : Option Bool
  max_value : Option Bool
  deriving DecidableEq

/-- Modelled from the spec: `PrimitiveStatistics<T>`
(`statistics/primitive.rs`, not in src/). Field shape taken from its uses
in `src/lib.rs`: a column descriptor, optional null/distinct counts and
optional typed min/max. -/
structure PrimitiveStatistics (T : Type) where
  descriptor : ColumnDescriptor
  null_count : Option Nat
  distinct_count : Option Nat
  min_value : Option T
  max_value : Option T
  deriving DecidableEq

/-- Modelled from the spec: `BinaryStatistics`
(`statistics/binary.rs`, not in src/). Field shape taken from its uses in
`src/lib.rs`: a column descriptor, counts, and byte-string min/max. -/
structure BinaryStatistics where
  descriptor : ColumnDescriptor
  null_count : Option Nat
  distinct_count : Option Nat
  min_value : Option (List Nat)
  max_value : Option (List Nat)
  deriving DecidableEq

/-- Modelled from the spec: `FixedLenStatistics`
(`statistics/fixed_len_binary.rs`, not in src/): the element size (from
`PhysicalType::FixedLenByteArray(size)`), counts, and byte-string
min/max. -/
structure FixedLenStatistics where
  size : Nat
  null_count : Option Nat
  distinct_count : Option Nat
  min_value : Option (List Nat)
  max_value : Option (List Nat)
  deriving DecidableEq

/-- A `&dyn Statistics` trait object (`src/statistics/mod.rs`): one
concrete statistics struct per physical type, embedded as a sum. The
`i32`/`i64` instantiations are embedded over `Int`, `Int96` over three
32-bit limbs, `f32`/`f64` over bit patterns. -/
inductive Stats where
  | boolean (s : BooleanStatistics)
  | int32 (s : PrimitiveStatistics Int)
  | int64 (s : PrimitiveStatistics Int)
  | int96 (s : PrimitiveStatistics (Nat × Nat × Nat))
  | float (s : PrimitiveStatistics Nat)
  | double (s : PrimitiveStatistics Nat)
  | binary (s : BinaryStatistics)
  | fixedLen (s : FixedLenStatistics)
  deriving DecidableEq

/-- `Statistics::physical_type()`: the declared physical type of a
statistics value. Modelled from the spec for the concrete structs (their
files are not in src/): descriptor-bearing structs report their
descriptor's physical type, `BooleanStatistics` reports `Boolean`,
`FixedLenStatistics` reports `FixedLenByteArray` of its stored size. -/
def Stats.physicalType : Stats → PhysicalType
  | .boolean _ => .boolean
  | .int32 s => s.descriptor.physicalType
  | .int64 s => s.descriptor.physicalType
  | .int96 s => s.descriptor.physicalType
  | .float s => s.descriptor.physicalType
  | .double s => s.descriptor.physicalType
  | .binary s => s.descriptor.physicalType
  | .fixedLen s => .fixedLenByteArray s.size

/-- `as_any().downcast_ref::<BooleanStatistics>()`. -/
def Stats.downcastBoolean : Stats → Option BooleanStatistics
  | .boolean s => some s
  | _ => none

/-- `as_any().downcast_ref::<PrimitiveStatistics<i32>>()`. -/
def Stats.downcastI32 : Stats → Option (PrimitiveStatistics Int)
  | .int32 s => some s
  | _ => none

/-- `as_any().downcast_ref::<PrimitiveStatistics<i64>>()`. -/
def Stats.downcastI64 : Stats → Option (PrimitiveStatistics Int)
  | .int64 s => some s
  | _ => none

/-- `as_any().downcast_ref::<PrimitiveStatistics<[u32; 3]>>()`. -/
def Stats.downcastI96 : Stats → Option (PrimitiveStatistics (Nat × Nat × Nat))
  | .int96 s => some s
  | _ => none

/-- `as_any().downcast_ref::<PrimitiveStatistics<f32>>()`. -/
def Stats.downcastF32 : Stats → Option (PrimitiveStatistics Nat)
  | .float s => some s
  | _ => none

/-- `as_any().downcast_ref::<PrimitiveStatistics<f64>>()`. -/
def Stats.downcastF64 : Stats → Option (PrimitiveStatistics Nat)
  | .double s => some s
  | _ => none

/-- `as_any().downcast_ref::<BinaryStatistics>()`. -/
def Stats.downcastBinary : Stats → Option BinaryStatistics
  | .binary s => some s
  | _ => none

/-- `as_any().downcast_ref::<FixedLenStatistics>()`. -/
def Stats.downcastFixedLen : Stats → Option FixedLenStatistics
  | .fixedLen s => some s
  | _ => none

/-- Error taxonomy (spec section 7; module `error` is not in src/). -/
inductive ParquetError where
  | format (msg : String)
  | corruption (msg : String)
  | schema (msg : String)
  | encoding (msg : String)
  | general (msg : String)
  deriving DecidableEq

/-- Decode one optional raw statistics field with a typed decoder: an
absent field stays absent, a present field that the decoder rejects is an
error ("errors if it is not possible to read the statistics to the
corresponding physical_type", doc of `deserialize_statistics`). -/
def readVal {α : Type} (dec : List Nat → Option α) :
    Option (List Nat) → Except ParquetError (Option α)
  | none => .ok none
  | some bs =>
    match dec bs with
    | some v => .ok (some v)
    | none => .error (.general "invalid statistics value")

/-- Modelled from the spec: `boolean::read` (`statistics/boolean.rs`, not
in src/) — reads optional counts and boolean min/max from the raw record;
absent fields remain absent. -/
def booleanRead (raw : ParquetStatistics) : Except ParquetError Stats :=
  match readVal decodeBool raw.min_value with
  | .error e => .error e
  | .ok mn =>
    match readVal decodeBool raw.max_value with
    | .error e => .error e
    | .ok mx =>
      .ok (.boolean ⟨raw.null_count.map Int.toNat, raw.distinct_count.map Int.toNat, mn, mx⟩)

/-- Modelled from the spec: `primitive::read::<T>`
(`statistics/primitive.rs`, not in src/) — reads optional counts and typed
min/max, keeping the supplied column descriptor; absent fields remain
absent. -/
def primitiveRead {α : Type} (dec : List Nat → Option α)
    (mk : PrimitiveStatistics α → Stats) (raw : ParquetStatistics)
    (d : ColumnDescriptor) : Except ParquetError Stats :=
  match readVal dec raw.min_value with
  | .error e => .error e
  | .ok mn =>
    match readVal dec raw.max_value with
    | .error e => .error e
    | .ok mx =>
      .ok (mk ⟨d, raw.null_count.map Int.toNat, raw.distinct_count.map Int.toNat, mn, mx⟩)

/-- Modelled from the spec: `binary::read` (`statistics/binary.rs`, not in
src/) — min/max are the raw byte strings. -/
def binaryRead (raw : ParquetStatistics) (d : ColumnDescriptor) :
    Except ParquetError Stats :=
  match readVal some raw.min_value with
  | .error e => .error e
  | .ok mn =>
    match readVal some raw.max_value with
    | .error e => .error e
    | .ok mx =>
      .ok (.binary ⟨d, raw.null_count.map Int.toNat, raw.distinct_count.map Int.toNat, mn, mx⟩)

/-- Modelled from the spec: `fixed_len_binary::read`
(`statistics/fixed_len_binary.rs`, not in src/) — min/max are the raw byte
strings; the element size is taken from the physical type. -/
def fixedLenRead (raw : ParquetStatistics) (size : Nat) :
    Except ParquetError Stats :=
  match readVal some raw.min_value with
  | .error e => .error e
  | .ok mn =>
    match readVal some raw.max_value with
    | .error e => .error e
    | .ok mx =>
      .ok (.fixedLen ⟨size, raw.null_count.map Int.toNat, raw.distinct_count.map Int.toNat, mn, mx⟩)

/-- `deserialize_statistics` (`src/statistics/mod.rs`, lines 114-128):
a single match on `descriptor.physical_type()` dispatching to the typed
reader of each of the eight physical types. -/
def deserialize_statistics (statistics : ParquetStatistics)
    (descriptor : ColumnDescriptor) : Except ParquetError Stats :=
  match descriptor.physicalType with
  | .boolean => booleanRead statistics
  | .int32 => primitiveRead decodeI32 Stats.int32 statistics descriptor
  | .int64 => primitiveRead decodeI64 Stats.int64 statistics descriptor
  | .int96 => primitiveRead decodeI96 Stats.int96 statistics descriptor
  | .float => primitiveRead decodeF32 Stats.float statistics descriptor
  | .double => primitiveRead decodeF64 Stats.double statistics descriptor
  | .byteArray => binaryRead statistics descriptor
  | .fixedLenByteArray size => fixedLenRead statistics size

/-- Modelled from the spec: `boolean::write` — writes present fields,
leaves absent fields absent. -/
def booleanWrite (s : BooleanStatistics) : ParquetStatistics :=
  ⟨s.null_count.map Int.ofNat, s.distinct_count.map Int.ofNat,
    s.min_value.map encodeBool, s.max_value.map encodeBool⟩

/-- Modelled from the spec: `primitive::write::<T>` — writes present
fields with the typed encoder, leaves absent fields absent. -/
def primitiveWrite {α : Type} (enc : α → List Nat)
    (s : PrimitiveStatistics α) : ParquetStatistics :=
  ⟨s.null_count.map Int.ofNat, s.distinct_count.map Int.ofNat,
    s.min_value.map enc, s.max_value.map enc⟩

/-- Modelled from the spec: `binary::write` — min/max byte strings are
copied verbatim. -/
def binaryWrite (s : BinaryStatistics) : ParquetStatistics :=
  ⟨s.null_count.map Int.ofNat, s.distinct_count.map Int.ofNat,
    s.min_value, s.max_value⟩

/-- Modelled from the spec: `fixed_len_binary::write` — min/max byte
strings are copied verbatim. -/
def fixedLenWrite (s : FixedLenStatistics) : ParquetStatistics :=
  ⟨s.null_count.map Int.ofNat, s.distinct_count.map Int.ofNat,
    s.min_value, s.max_value⟩

/-- `serialize_statistics` (`src/statistics/mod.rs`, lines 131-148):
a single match on `statistics.physical_type()`, each arm downcasting to
the concrete struct and calling its typed writer. A failed downcast
(`.unwrap()` panic in the source) is embedded as `none`. -/
def serialize_statistics (statistics : Stats) : Option ParquetStatistics :=
  match statistics.physicalType with
  | .boolean => (statistics.downcastBoolean).map booleanWrite
  | .int32 => (statistics.downcastI32).map (primitiveWrite encodeI32)
  | .int64 => (statistics.downcastI64).map (primitiveWrite encodeI64)
  | .int96 => (statistics.downcastI96).map (primitiveWrite encodeI96)
  | .float => (statistics.downcastF32).map (primitiveWrite encodeF32)
  | .double => (statistics.downcastF64).map (primitiveWrite encodeF64)
  | .byteArray => (statistics.downcastBinary).map binaryWrite
  | .fixedLenByteArray _ => (statistics.downcastFixedLen).map fixedLenWrite

/-- `impl PartialEq for &dyn Statistics` (`src/statistics/mod.rs`, lines
44-108): `self.physical_type() == other.physical_type() && match
self.physical_type() { ... downcast both sides and compare ... }`.
Rust's `&&` short-circuits, so when the physical types differ the result
is `false` with no downcast performed; a failed `.unwrap()` inside the
match (a panic in the source) is embedded as `none`. -/
def statEq (a b : Stats) : Option Bool :=
  if a.physicalType = b.physicalType then
    match a.physicalType with
    | .boolean =>
      match a.downcastBoolean, b.downcastBoolean with
      | some x, some y => some (decide (x = y))
      | _, _ => none
    | .int32 =>
      match a.downcastI32, b.downcastI32 with
      | some x, some y => some (decide (x = y))
      | _, _ => none
    | .int64 =>
      match a.downcastI64, b.downcastI64 with
      | some x, some y => some (decide (x = y))
      | _, _ => none
    | .int96 =>
      match a.downcastI96, b.downcastI96 with
      | some x, some y => some (decide (x = y))
      | _, _ => none
    | .float =>
      match a.downcastF32, b.downcastF32 with
      | some x, some y => some (decide (x = y))
      | _, _ => none
    | .double =>
      match a.downcastF64, b.downcastF64 with
      | some x, some y => some (decide (x = y))
      | _, _ => none
    | .byteArray =>
      match a.downcastBinary, b.downcastBinary with
      | some x, some y => some (decide (x = y))
      | _, _ => none
    | .fixedLenByteArray _ =>
      match a.downcastFixedLen, b.downcastFixedLen with
      | some x, some y => some (decide (x = y))
      | _, _ => none
  else
    some false

/-- The spec invariant (section 3): a statistics value's concrete variant
matches its declared physical type. Constant-typed variants satisfy it by
construction; descriptor-bearing variants require the descriptor to carry
their own physical type. -/
def Stats.variantMatches : Stats → Prop
  | .boolean _ => True
  | .int32 s => s.descriptor.physicalType = .int32
  | .int64 s => s.descriptor.physicalType = .int64
  | .int96 s => s.descriptor.physicalType = .int96
  | .float s => s.descriptor.physicalType = .float
  | .double s => s.descriptor.physicalType = .double
  | .binary s => s.descriptor.physicalType = .byteArray
  | .fixedLen _ => True

instance (s : Stats) : Decidable s.variantMatches := by
  cases s <;> simp only [Stats.variantMatches] <;> infer_instance

/-- The column descriptor of a statistics value: the stored descriptor
where the struct has one, otherwise a descriptor of the declared physical
type (shape as built in `src/lib.rs`, `alltypes_statistics`). -/
def Stats.descriptorOf : Stats → ColumnDescriptor
  | .boolean _ => ⟨⟨"col", .boolean⟩, 1, 0, ["col"]⟩
  | .int32 s => s.descriptor
  | .int64 s => s.descriptor
  | .int96 s => s.descriptor
  | .float s => s.descriptor
  | .double s => s.descriptor
  | .binary s => s.descriptor
  | .fixedLen s => ⟨⟨"col", .fixedLenByteArray s.size⟩, 1, 0, ["col"]⟩

/-- A valid statistics value: its variant matches its declared physical
type and every present numeric bound is in the range of its machine
type (`i32`, `i64`, `u32` limbs, `f32`/`f64` bit patterns). -/
def Stats.wf : Stats → Prop
  | .boolean _ => True
  | .int32 s => s.descriptor.physicalType = .int32 ∧
      (∀ v ∈ s.min_value, -2147483648 ≤ v ∧ v < 2147483648) ∧
      (∀ v ∈ s.max_value, -2147483648 ≤ v ∧ v < 2147483648)
  | .int64 s => s.descriptor.physicalType = .int64 ∧
      (∀ v ∈ s.min_value, -9223372036854775808 ≤ v ∧ v < 9223372036854775808) ∧
      (∀ v ∈ s.max_value, -9223372036854775808 ≤ v ∧ v < 9223372036854775808)
  | .int96 s => s.descriptor.physicalType = .int96 ∧
      (∀ v ∈ s.min_value, v.1 < 4294967296 ∧ v.2.1 < 4294967296 ∧ v.2.2 < 4294967296) ∧
      (∀ v ∈ s.max_value, v.1 < 4294967296 ∧ v.2.1 < 4294967296 ∧ v.2.2 < 4294967296)
  | .float s => s.descriptor.physicalType = .float ∧
      (∀ v ∈ s.min_value, v < 4294967296) ∧ (∀ v ∈ s.max_value, v < 4294967296)
  | .double s => s.descriptor.physicalType = .double ∧
      (∀ v ∈ s.min_value, v < 18446744073709551616) ∧
      (∀ v ∈ s.max_value, v < 18446744073709551616)
  | .binary s => s.descriptor.physicalType = .byteArray
  | .fixedLen _ => True

/-- The table of typed readers, one per physical type, written out
explicitly (spec section 4.2: the dispatch is a single match over the
closed eight-element physical-type set, with no fallback arm). -/
def readerFor : PhysicalType → ParquetStatistics → ColumnDescriptor → Except ParquetError Stats
  | .boolean => fun raw _ => booleanRead raw
  | .int32 => fun raw d => primitiveRead decodeI32 Stats.int32 raw d
  | .int64 => fun raw d => primitiveRead decodeI64 Stats.int64 raw d
  | .int96 => fun raw d => primitiveRead decodeI96 Stats.int96 raw d
  | .float => fun raw d => primitiveRead decodeF32 Stats.float raw d
  | .double => fun raw d => primitiveRead decodeF64 Stats.double raw d
  | .byteArray => fun raw d => binaryRead raw d
  | .fixedLenByteArray size => fun raw _ => fixedLenRead raw size

/-- The table of typed writers, one per physical type, written out
explicitly (spec section 4.2). -/
def writerFor : PhysicalType → Stats → Option ParquetStatistics
  | .boolean => fun s => (s.downcastBoolean).map booleanWrite
  | .int32 => fun s => (s.downcastI32).map (primitiveWrite encodeI32)
  | .int64 => fun s => (s.downcastI64).map (primitiveWrite encodeI64)
  | .int96 => fun s => (s.downcastI96).map (primitiveWrite encodeI96)
  | .float => fun s => (s.downcastF32).map (primitiveWrite encodeF32)
  | .double => fun s => (s.downcastF64).map (primitiveWrite encodeF64)
  | .byteArray => fun s => (s.downcastBinary).map binaryWrite
  | .fixedLenByteArray _ => fun s => (s.downcastFixedLen).map fixedLenWrite

/-- `PARQUET_MAGIC` (`src/lib.rs`, line 33): the bytes of `b"PAR1"`. -/
def PARQUET_MAGIC : List Nat := [80, 65, 82, 49]

/-- `FOOTER_SIZE` (`src/lib.rs`, line 32). -/
def FOOTER_SIZE : Nat := 8

/-- Recompose a 4-byte little-endian list into a natural number (the
footer-length field). -/
def fromLe4List (bs : List Nat) : Nat :=
  match bs with
  | [b0, b1, b2, b3] => fromLe4 b0 b1 b2 b3
  | _ => 0

/-- The footer-length field a file declares: the 4 bytes immediately
before the trailing magic marker, read little-endian. -/
def declaredFooterLen (file : List Nat) : Nat :=
  fromLe4List ((file.drop (file.length - 8)).take 4)

/-- Modelled from the spec: the Metadata Navigator read direction
(spec section 4.5; module `read` is not in src/, only `PARQUET_MAGIC` and
`FOOTER_SIZE` are). Verify the trailing 4 bytes equal the magic marker,
read the 4 bytes before them as a little-endian footer length, reject a
length that exceeds the file length, and return the metadata bytes. -/
def read_metadata (file : List Nat) : Except ParquetError (List Nat) :=
  if file.length < FOOTER_SIZE then
    .error (.format "file is smaller than the footer")
  else if file.drop (file.length - 4) ≠ PARQUET_MAGIC then
    .error (.format "magic marker does not match")
  else if declaredFooterLen file + FOOTER_SIZE > file.length then
    .error (.format "declared footer length exceeds the file length")
  else
    .ok ((file.drop (file.length - FOOTER_SIZE - declaredFooterLen file)).take
      (declaredFooterLen file))

/-- Is the outcome a `FormatError`? -/
def isFormatError : Except ParquetError (List Nat) → Bool
  | .error (.format _) => true
  | _ => false

/-- Modelled from the spec: the Metadata Navigator write direction
(spec sections 4.5 and 6; module `write` is not in src/): after all
column data, append the structured metadata bytes, then the 4-byte
little-endian footer length, then the magic marker. -/
def end_file (data metadata : List Nat) : List Nat :=
  data ++ metadata ++ le4 metadata.length ++ PARQUET_MAGIC

/-- Modelled from the spec: `serialization::read::Array` (not in src/);
variant shape taken from its uses in `src/lib.rs`: typed leaf arrays of
optional values plus a `List` variant of optional child arrays.
`f32`/`f64` values are carried as bit patterns. -/
inductive PArray where
  | boolean (values : List (Option Bool))
  | int32 (values : List (Option Int))
  | int64 (values : List (Option Int))
  | float32bits (values : List (Option Nat))
  | float64bits (values : List (Option Nat))
  | binary (values : List (Option (List Nat)))
  | list (values : List (Option PArray))

/-- Modelled from the spec: `serialization::read::Value` (not in src/);
variant shape taken from its uses in `src/lib.rs` (statistics fixtures). -/
inductive Value where
  | boolean (v : Option Bool)
  | int32 (v : Option Int)
  | int64 (v : Option Int)
  | float64bits (v : Option Nat)
  | binary (v : Option (List Nat))
  deriving DecidableEq

/-- Modelled from the spec (section 4.3, encode direction), for the
nested optional-list-of-optional-int64 column of `pyarrow_nested_optional`
(max definition level 3, max repetition level 1): one record's
contribution to the flattened column. An absent record emits definition
level 0; a present empty list emits definition level 1; a null element
emits definition level 2; a present element emits definition level 3 and
a value. Repetition level is 0 on the first slot of the record and 1 on
later slots. -/
def flattenRecord : Option (List (Option Int)) → List ((Nat × Nat) × Option Int)
  | none => [((0, 0), none)]
  | some [] => [((1, 0), none)]
  | some xs => xs.enum.map (fun p =>
      match p.2 with
      | none => ((2, if p.1 = 0 then 0 else 1), none)
      | some v => ((3, if p.1 = 0 then 0 else 1), some v))

/-- Modelled from the spec (section 4.3): flatten a whole column by
concatenating the records' slots; the level sequences are the slots'
level pairs and the value sequence keeps only the present leaf values. -/
def flattenNested (records : List (Option (List (Option Int)))) :
    List (Nat × Nat) × List Int :=
  let slots := (records.map flattenRecord).flatten
  (slots.map Prod.fst, slots.filterMap Prod.snd)

/-- Decoder state for nested reconstruction: finished records, the
record currently being assembled (if any), and the remaining leaf
values. -/
structure ReconState where
  completed : List (Option (List (Option Int)))
  current : Option (Option (List (Option Int)))
  values : List Int

/-- Close the record currently being assembled, if any. -/
def flushRecord (st : ReconState) : ReconState :=
  match st.current with
  | some r => ⟨st.completed ++ [r], none, st.values⟩
  | none => st

/-- Consume the next leaf value (total; the empty case is unreachable on
well-formed codec output). -/
def popValue (vs : List Int) : Int × List Int :=
  match vs with
  | v :: rest => (v, rest)
  | [] => (0, [])

/-- Modelled from the spec (section 4.3, decode direction): process one
flattened slot. Repetition level 0 starts a new top-level record;
definition level 0 reconstructs an absent record, 1 a present empty list,
2 a null element, 3 a present element consuming one leaf value. -/
def reconStep (st : ReconState) (slot : Nat × Nat) : ReconState :=
  if slot.2 = 0 then
    let st := flushRecord st
    if slot.1 = 0 then ⟨st.completed, some none, st.values⟩
    else if slot.1 = 1 then ⟨st.completed, some (some []), st.values⟩
    else if slot.1 = 2 then ⟨st.completed, some (some [none]), st.values⟩
    else
      let p := popValue st.values
      ⟨st.completed, some (some [some p.1]), p.2⟩
  else
    match st.current with
    | some (some xs) =>
      if slot.1 = 2 then ⟨st.completed, some (some (xs ++ [none])), st.values⟩
      else if slot.1 = 3 then
        let p := popValue st.values
        ⟨st.completed, some (some (xs ++ [some p.1])), p.2⟩
      else ⟨st.completed, st.current, st.values⟩
    | _ => ⟨st.completed, st.current, st.values⟩

/-- Modelled from the spec (section 4.3, decode direction): scan the
level pairs left to right, rebuilding the sequence of top-level
records. -/
def reconstructNested (levels : List (Nat × Nat)) (values : List Int) :
    List (Option (List (Option Int))) :=
  (flushRecord (levels.foldl reconStep ⟨[], none, values⟩)).completed

/-- The records of `pyarrow_nested_optional(0)` (`src/lib.rs`, lines
388-407): `[[0, 1], None, [2, None, 3], [4, 5, 6], [], [7, 8, 9], None,
[10]]`, as plain nested optional lists. -/
def nestedRecords : List (Option (List (Option Int))) :=
  [some [some 0, some 1], none, some [some 2, none, some 3],
   some [some 4, some 5, some 6], some [], some [some 7, some 8, some 9],
   none, some [some 10]]

/-- `pyarrow_nested_optional(0)` (`src/lib.rs`, lines 388-407) as an
`Array` value. -/
def pyarrow_nested_optional_col0 : PArray :=
  .list [some (.int64 [some 0, some 1]), none,
    some (.int64 [some 2, none, some 3]),
    some (.int64 [some 4, some 5, some 6]),
    some (.int64 []),
    some (.int64 [some 7, some 8, some 9]),
    none, some (.int64 [some 10])]

/-- View plain nested optional lists as the `Array::List` value built in
`src/lib.rs`. -/
def toListArray (records : List (Option (List (Option Int)))) : PArray :=
  .list (records.map (Option.map PArray.int64))

/-- The definition and repetition levels documented for
`pyarrow_nested_optional` (`src/lib.rs`, lines 389-391 comment). -/
def nestedExpectedLevels : List (Nat × Nat) :=
  [(3, 0), (3, 1), (0, 0), (3, 0), (2, 1), (3, 1), (3, 0), (3, 1), (3, 1),
   (1, 0), (3, 0), (3, 1), (3, 1), (0, 0), (3, 0)]

/-- Modelled from the spec (section 4.4): the Plain encoding of an
`i32` column — each value as 4 little-endian bytes, concatenated. -/
def encodePlainI32 (vs : List Int) : List Nat :=
  (vs.map encodeI32).flatten

/-- Modelled from the spec (section 4.4): decode `count` Plain-encoded
`i32` values from a byte stream. -/
def decodePlainI32 : List Nat → Nat → List Int
  | _, 0 => []
  | b0 :: b1 :: b2 :: b3 :: rest, n + 1 =>
    (match decodeI32 [b0, b1, b2, b3] with
     | some v => v :: decodePlainI32 rest n
     | none => [])
  | _, _ + 1 => []

/-- Modelled from the spec (section 4.6): one step of the single-pass
statistics scan — `None` increments the null count, a present value
updates min and max. -/
def statsStep (acc : Nat × Option Int × Option Int) (v : Option Int) :
    Nat × Option Int × Option Int :=
  match v with
  | none => (acc.1 + 1, acc.2.1, acc.2.2)
  | some x =>
    (acc.1,
     some (match acc.2.1 with | none => x | some m => min m x),
     some (match acc.2.2 with | none => x | some m => max m x))

/-- Modelled from the spec (section 4.6): single-pass null-count/min/max
over a column of optional integer values. -/
def computeStats (vs : List (Option Int)) : Nat × Option Int × Option Int :=
  vs.foldl statsStep (0, none, none)

/-- The definition levels of an optional flat column: 1 where the value
is present, 0 where it is absent (spec sections 3 and 4.3; one level per
slot, max definition level 1). -/
def defLevelsOptional (vs : List (Option Int)) : List Nat :=
  vs.map (fun v => match v with | some _ => 1 | none => 0)

/-- The `i32` column descriptor built in `alltypes_statistics`
(`src/lib.rs`, lines 146-151). -/
def descriptor_i32 : ColumnDescriptor :=
  ⟨⟨"col", .int32⟩, 1, 0, ["col"]⟩

/-- `alltypes_plain(0)` (`src/lib.rs`, lines 57-64): the required `i32`
column `[4, 5, 6, 7, 2, 3, 0, 1]`. -/
def alltypes_plain_col0 : PArray :=
  .int32 [some 4, some 5, some 6, some 7, some 2, some 3, some 0, some 1]

/-- `alltypes_statistics(0)` (`src/lib.rs`, lines 177-184):
`PrimitiveStatistics::<i32> { null_count: Some(0), distinct_count: None,
min_value: Some(0), max_value: Some(7) }`. -/
def alltypes_statistics_col0 : Stats :=
  .int32 ⟨descriptor_i32, some 0, none, some 0, some 7⟩

/-- The raw values of `alltypes_plain(0)`. -/
def alltypesCol0Values : List Int := [4, 5, 6, 7, 2, 3, 0, 1]

/-- `pyarrow_optional(0)` (`src/lib.rs`, lines 242-254): the optional
`i64` column. -/
def pyarrow_optional_col0 : PArray :=
  .int64 [some 0, some 1, none, some 3, none, some 5, some 6, some 7,
    none, some 9]

/-- The optional values of `pyarrow_optional(0)`. -/
def pyarrowOptionalCol0Values : List (Option Int) :=
  [some 0, some 1, none, some 3, none, some 5, some 6, some 7, none, some 9]

/-- `pyarrow_optional_stats(0)` (`src/lib.rs`, lines 302-304):
`(Some(3), Value::Int64(Some(0)), Value::Int64(Some(9)))`. -/
def pyarrow_optional_stats_col0 : Option Int × Value × Value :=
  (some 3, .int64 (some 0), .int64 (some 9))

/-! Helper lemmas. -/

theorem fromLe4_le4 (n : Nat) (h : n < 4294967296) :
    fromLe4 (n % 256) (n / 256 % 256) (n / 65536 % 256) (n / 16777216 % 256) = n := by
  simp only [fromLe4]
  omega

theorem decodeBool_encodeBool (b : Bool) : decodeBool (encodeBool b) = some b := by
  cases b <;> rfl

theorem decodeI32_encodeI32 (v : Int) (h1 : -2147483648 ≤ v)
    (h2 : v < 2147483648) : decodeI32 (encodeI32 v) = some v := by
  simp only [encodeI32, le4, decodeI32, fromLe4, Option.some.injEq]
  split_ifs <;> omega

theorem decodeI64_encodeI64 (v : Int) (h1 : -9223372036854775808 ≤ v)
    (h2 : v < 9223372036854775808) : decodeI64 (encodeI64 v) = some v := by
  simp only [encodeI64, le8, le4, decodeI64, fromLe4, List.cons_append,
    List.nil_append, Option.some.injEq]
  split_ifs <;> omega

theorem decodeI96_encodeI96 (v : Nat × Nat × Nat) (h1 : v.1 < 4294967296)
    (h2 : v.2.1 < 4294967296) (h3 : v.2.2 < 4294967296) :
    decodeI96 (encodeI96 v) = some v := by
  obtain ⟨a, b, c⟩ := v
  dsimp only at h1 h2 h3
  simp only [encodeI96, le4, decodeI96, fromLe4, List.cons_append,
    List.nil_append, Option.some.injEq, Prod.mk.injEq]
  refine ⟨by omega, by omega, by omega⟩

theorem decodeF32_encodeF32 (bits : Nat) (h : bits < 4294967296) :
    decodeF32 (encodeF32 bits) = some bits := by
  simp only [encodeF32, le4, decodeF32, fromLe4, Option.some.injEq]
  omega

theorem decodeF64_encodeF64 (bits : Nat) (h : bits < 18446744073709551616) :
    decodeF64 (encodeF64 bits) = some bits := by
  simp only [encodeF64, le8, le4, decodeF64, fromLe4, List.cons_append,
    List.nil_append, Option.some.injEq]
  omega

theorem readVal_map {α : Type} (dec : List Nat → Option α) (enc : α → List Nat)
    (o : Option α) (h : ∀ v, o = some v → dec (enc v) = some v) :
    readVal dec (o.map enc) = .ok o := by
  cases o with
  | none => rfl
  | some v =>
    show readVal dec (some (enc v)) = .ok (some v)
    simp [readVal, h v rfl]

theorem counts_roundtrip (o : Option Nat) : (o.map Int.ofNat).map Int.toNat = o := by
  cases o <;> simp

theorem primitive_roundtrip {α : Type} (dec : List Nat → Option α)
    (enc : α → List Nat) (mk : PrimitiveStatistics α → Stats)
    (p : PrimitiveStatistics α)
    (hmin : ∀ v, p.min_value = some v → dec (enc v) = some v)
    (hmax : ∀ v, p.max_value = some v → dec (enc v) = some v) :
    primitiveRead dec mk (primitiveWrite enc p) p.descriptor = .ok (mk p) := by
  simp only [primitiveRead, primitiveWrite]
  rw [readVal_map dec enc _ hmin, readVal_map dec enc _ hmax,
    counts_roundtrip, counts_roundtrip]

theorem readVal_some (o : Option (List Nat)) : readVal some o = .ok o := by
  cases o <;> rfl

theorem boolean_roundtrip (b : BooleanStatistics) :
    booleanRead (booleanWrite b) = .ok (.boolean b) := by
  simp only [booleanRead, booleanWrite]
  rw [readVal_map decodeBool encodeBool _ (fun v _ => decodeBool_encodeBool v),
    readVal_map decodeBool encodeBool _ (fun v _ => decodeBool_encodeBool v),
    counts_roundtrip, counts_roundtrip]

theorem binary_roundtrip (b : BinaryStatistics) :
    binaryRead (binaryWrite b) b.descriptor = .ok (.binary b) := by
  simp only [binaryRead, binaryWrite, readVal_some, counts_roundtrip]

theorem fixedLen_roundtrip (f : FixedLenStatistics) :
    fixedLenRead (fixedLenWrite f) f.size = .ok (.fixedLen f) := by
  simp only [fixedLenRead, fixedLenWrite, readVal_some, counts_roundtrip]

/-! Claim theorems. -/

/-- C1: for every physical type and every valid statistics value
(including values with any of `null_count`, `distinct_count`,
`min_value`, `max_value` absent), deserializing the result of
serializing it with its own column descriptor yields the same value.
Equality of the results forces every optional field absent in the input
to be absent in the output (never a sentinel or default). -/
theorem c1_statistics_roundtrip (s : Stats) (h : s.wf) :
    ∃ raw, serialize_statistics s = some raw ∧
      deserialize_statistics raw s.descriptorOf = Except.ok s := by
  cases s with
  | boolean b =>
    exact ⟨booleanWrite b, rfl, boolean_roundtrip b⟩
  | int32 p =>
    obtain ⟨hd, hmin, hmax⟩ := h
    refine ⟨primitiveWrite encodeI32 p, ?_, ?_⟩
    · unfold serialize_statistics
      dsimp only [Stats.physicalType]
      rw [hd]
      rfl
    · show deserialize_statistics (primitiveWrite encodeI32 p) p.descriptor = .ok (.int32 p)
      unfold deserialize_statistics
      rw [hd]
      exact primitive_roundtrip _ _ _ _
        (fun v hv => decodeI32_encodeI32 v (hmin v hv).1 (hmin v hv).2)
        (fun v hv => decodeI32_encodeI32 v (hmax v hv).1 (hmax v hv).2)
  | int64 p =>
    obtain ⟨hd, hmin, hmax⟩ := h
    refine ⟨primitiveWrite encodeI64 p, ?_, ?_⟩
    · unfold serialize_statistics
      dsimp only [Stats.physicalType]
      rw [hd]
      rfl
    · show deserialize_statistics (primitiveWrite encodeI64 p) p.descriptor = .ok (.int64 p)
      unfold deserialize_statistics
      rw [hd]
      exact primitive_roundtrip _ _ _ _
        (fun v hv => decodeI64_encodeI64 v (hmin v hv).1 (hmin v hv).2)
        (fun v hv => decodeI64_encodeI64 v (hmax v hv).1 (hmax v hv).2)
  | int96 p =>
    obtain ⟨hd, hmin, hmax⟩ := h
    refine ⟨primitiveWrite encodeI96 p, ?_, ?_⟩
    · unfold serialize_statistics
      dsimp only [Stats.physicalType]
      rw [hd]
      rfl
    · show deserialize_statistics (primitiveWrite encodeI96 p) p.descriptor = .ok (.int96 p)
      unfold deserialize_statistics
      rw [hd]
      exact primitive_roundtrip _ _ _ _
        (fun v hv => decodeI96_encodeI96 v (hmin v hv).1 (hmin v hv).2.1 (hmin v hv).2.2)
        (fun v hv => decodeI96_encodeI96 v (hmax v hv).1 (hmax v hv).2.1 (hmax v hv).2.2)
  | float p =>
    obtain ⟨hd, hmin, hmax⟩ := h
    refine ⟨primitiveWrite encodeF32 p, ?_, ?_⟩
    · unfold serialize_statistics
      dsimp only [Stats.physicalType]
      rw [hd]
      rfl
    · show deserialize_statistics (primitiveWrite encodeF32 p) p.descriptor = .ok (.float p)
      unfold deserialize_statistics
      rw [hd]
      exact primitive_roundtrip _ _ _ _
        (fun v hv => decodeF32_encodeF32 v (hmin v hv))
        (fun v hv => decodeF32_encodeF32 v (hmax v hv))
  | double p =>
    obtain ⟨hd, hmin, hmax⟩ := h
    refine ⟨primitiveWrite encodeF64 p, ?_, ?_⟩
    · unfold serialize_statistics
      dsimp only [Stats.physicalType]
      rw [hd]
      rfl
    · show deserialize_statistics (primitiveWrite encodeF64 p) p.descriptor = .ok (.double p)
      unfold deserialize_statistics
      rw [hd]
      exact primitive_roundtrip _ _ _ _
        (fun v hv => decodeF64_encodeF64 v (hmin v hv))
        (fun v hv => decodeF64_encodeF64 v (hmax v hv))
  | binary b =>
    have hd : b.descriptor.physicalType = .byteArray := h
    refine ⟨binaryWrite b, ?_, ?_⟩
    · unfold serialize_statistics
      dsimp only [Stats.physicalType]
      rw [hd]
      rfl
    · show deserialize_statistics (binaryWrite b) b.descriptor = .ok (.binary b)
      unfold deserialize_statistics
      rw [hd]
      exact binary_roundtrip b
  | fixedLen f =>
    exact ⟨fixedLenWrite f, rfl, fixedLen_roundtrip f⟩

/-- Witness for C1 at the concrete `i32` statistics value of
`alltypes_statistics(0)` (whose `distinct_count` is absent and stays
absent). -/
theorem c1_statistics_roundtrip_witness :
    ∃ raw, serialize_statistics alltypes_statistics_col0 = some raw ∧
      deserialize_statistics raw alltypes_statistics_col0.descriptorOf =
        Except.ok alltypes_statistics_col0 := by
  refine c1_statistics_roundtrip alltypes_statistics_col0 ?_
  refine ⟨rfl, ?_, ?_⟩ <;> intro v hv <;>
    simp only [alltypes_statistics_col0, Option.mem_def, Option.some.injEq] at hv <;>
    omega

/-- C4: `deserialize_statistics` dispatches only on the descriptor's
physical type — for every raw record and every descriptor it equals the
typed reader that `readerFor` assigns to that physical type, a table
with one explicit arm per member of the closed eight-element set and no
fallback — and `serialize_statistics` likewise equals the typed writer
that `writerFor` assigns to the statistics value's own physical type. -/
theorem c4_dispatch_closed_exhaustive :
    (∀ (raw : ParquetStatistics) (d : ColumnDescriptor),
      deserialize_statistics raw d = readerFor d.physicalType raw d) ∧
    (∀ s : Stats, serialize_statistics s = writerFor s.physicalType s) := by
  constructor
  · intro raw d
    unfold deserialize_statistics readerFor
    cases d.physicalType <;> rfl
  · intro s
    unfold serialize_statistics writerFor
    cases s.physicalType <;> rfl

/-- C10: when the two operands' physical types differ the equality
comparison is total — the physical-type guard short-circuits Rust's `&&`,
so the result is `false` (`some false`, not the `none` that models a
panicking downcast) with no downcast arm evaluated. -/
theorem c10_neq_types_eq_false (a b : Stats)
    (h : a.physicalType ≠ b.physicalType) : statEq a b = some false := by
  unfold statEq
  rw [if_neg h]

/-- Witness for C10: an `i32` statistics value compared with a boolean
one. -/
theorem c10_neq_types_eq_false_witness :
    statEq alltypes_statistics_col0 (.boolean ⟨none, none, none, none⟩) =
      some false :=
  c10_neq_types_eq_false _ _ (by decide)

/-- C5: for two statistics values of the same physical type (whose
concrete variants match that type, the invariant under which the
comparison is defined), the downcast-dispatching equality returns `true`
exactly when the two values are structurally equal — same variant and
equal `null_count`, `distinct_count`, `min_value`, `max_value`, and
descriptor (and size) fields where present. -/
theorem c5_eq_iff_structural (a b : Stats) (ha : a.variantMatches)
    (hb : b.variantMatches) (hpt : a.physicalType = b.physicalType) :
    statEq a b = some true ↔ a = b := by
  cases a <;> cases b <;>
    simp_all [statEq, Stats.physicalType, Stats.variantMatches,
      Stats.downcastBoolean, Stats.downcastI32, Stats.downcastI64,
      Stats.downcastI96, Stats.downcastF32, Stats.downcastF64,
      Stats.downcastBinary, Stats.downcastFixedLen]

/-- Witness for C5 at two concrete equal `i32` statistics values. -/
theorem c5_eq_iff_structural_witness :
    statEq alltypes_statistics_col0 alltypes_statistics_col0 = some true :=
  (c5_eq_iff_structural alltypes_statistics_col0 alltypes_statistics_col0
    (by decide) (by decide) rfl).mpr rfl

/-- C9: when a statistics value's concrete variant matches its declared
physical type, `serialize_statistics` does not panic (every downcast in
its dispatch succeeds), and the equality comparison of two such values
of the same physical type does not panic either. -/
theorem c9_no_panic (a b : Stats) (ha : a.variantMatches)
    (hb : b.variantMatches) (hpt : a.physicalType = b.physicalType) :
    (serialize_statistics a).isSome = true ∧ (statEq a b).isSome = true := by
  cases a <;> cases b <;>
    simp_all [statEq, serialize_statistics, Stats.physicalType,
      Stats.variantMatches, Stats.downcastBoolean, Stats.downcastI32,
      Stats.downcastI64, Stats.downcastI96, Stats.downcastF32,
      Stats.downcastF64, Stats.downcastBinary, Stats.downcastFixedLen]

/-- Witness for C9 at two concrete boolean statistics values. -/
theorem c9_no_panic_witness :
    (serialize_statistics (Stats.boolean ⟨some 0, none, some false, some true⟩)).isSome = true ∧
      (statEq (Stats.boolean ⟨some 0, none, some false, some true⟩)
        (Stats.boolean ⟨none, none, none, none⟩)).isSome = true :=
  c9_no_panic _ _ (by decide) (by decide) rfl

/-- C3: reading a file's footer fails with a `FormatError` whenever the
trailing 4 bytes differ from the magic marker, and fails with a
`FormatError` whenever the declared footer length exceeds the file
length; in both cases no metadata is produced (`read_metadata` returns
no `ok` value). -/
theorem c3_footer_rejects (file : List Nat) :
    (file.drop (file.length - 4) ≠ PARQUET_MAGIC →
      isFormatError (read_metadata file) = true ∧
      ∀ md, read_metadata file ≠ Except.ok md) ∧
    (FOOTER_SIZE ≤ file.length → file.length < declaredFooterLen file →
      isFormatError (read_metadata file) = true ∧
      ∀ md, read_metadata file ≠ Except.ok md) := by
  constructor
  · intro h
    unfold read_metadata
    split_ifs <;> simp_all [isFormatError]
  · intro h1 h2
    unfold read_metadata
    split_ifs <;> simp_all [isFormatError, FOOTER_SIZE]
    omega

/-- Witness for C3: a file of 8 zero bytes (wrong magic) and a file
whose 4 trailing-length bytes declare a 4096-byte footer inside an
8-byte file (correct magic, oversized declared length). -/
theorem c3_footer_rejects_witness :
    (isFormatError (read_metadata [0, 0, 0, 0, 0, 0, 0, 0]) = true ∧
      ∀ md, read_metadata [0, 0, 0, 0, 0, 0, 0, 0] ≠ Except.ok md) ∧
    (isFormatError (read_metadata [0, 16, 0, 0, 80, 65, 82, 49]) = true ∧
      ∀ md, read_metadata [0, 16, 0, 0, 80, 65, 82, 49] ≠ Except.ok md) :=
  ⟨(c3_footer_rejects [0, 0, 0, 0, 0, 0, 0, 0]).1 (by decide),
   (c3_footer_rejects [0, 16, 0, 0, 80, 65, 82, 49]).2 (by decide) (by decide)⟩

/-- C6: the file trailer written after all column data is the structured
metadata bytes, then the 4-byte little-endian footer length, then the
4-byte magic marker `PAR1`; the fixed-size suffix after the metadata
bytes is exactly `FOOTER_SIZE = 8` bytes, the trailing 4 bytes of the
file are the magic marker, and (for any metadata shorter than 2^32
bytes) the length field read back little-endian is the metadata
length. -/
theorem c6_trailer_layout (data metadata : List Nat) :
    end_file data metadata =
      data ++ metadata ++ le4 metadata.length ++ PARQUET_MAGIC ∧
    (le4 metadata.length ++ PARQUET_MAGIC).length = FOOTER_SIZE ∧
    FOOTER_SIZE = 8 ∧
    (end_file data metadata).length =
      data.length + metadata.length + FOOTER_SIZE ∧
    (end_file data metadata).drop ((end_file data metadata).length - 4) =
      PARQUET_MAGIC ∧
    (metadata.length < 4294967296 →
      declaredFooterLen (end_file data metadata) = metadata.length) := by
  have hlen4 : (le4 metadata.length).length = 4 := rfl
  have hmag : (PARQUET_MAGIC : List Nat).length = 4 := rfl
  have hlen : (end_file data metadata).length =
      data.length + metadata.length + 8 := by
    simp only [end_file, List.length_append, hlen4, hmag]
  refine ⟨rfl, rfl, rfl, hlen, ?_, ?_⟩
  · have h2 : (end_file data metadata).length - 4 =
        (data ++ metadata ++ le4 metadata.length).length := by
      rw [hlen]
      simp only [List.length_append, hlen4]
      omega
    rw [h2]
    show ((data ++ metadata ++ le4 metadata.length) ++ PARQUET_MAGIC).drop
      (data ++ metadata ++ le4 metadata.length).length = PARQUET_MAGIC
    rw [List.drop_left]
  · intro hm
    have hassoc : end_file data metadata =
        (data ++ metadata) ++ (le4 metadata.length ++ PARQUET_MAGIC) := by
      simp [end_file, List.append_assoc]
    have hdm : (end_file data metadata).length - 8 =
        (data ++ metadata).length := by
      rw [hlen]
      simp only [List.length_append]
      omega
    unfold declaredFooterLen
    rw [hdm, hassoc, List.drop_left,
      show (4 : Nat) = (le4 metadata.length).length from hlen4.symm,
      List.take_left]
    simp only [le4, fromLe4List, fromLe4]
    omega

/-- Witness for C6: the length field reads back for a concrete 3-byte
metadata record. -/
theorem c6_trailer_layout_witness :
    declaredFooterLen (end_file [1, 2] [3, 4, 5]) = 3 :=
  (c6_trailer_layout [1, 2] [3, 4, 5]).2.2.2.2.2 (by decide)

/-- C2: the nested optional-list Int64 column of
`pyarrow_nested_optional` — records `[[0,1], None, [2,None,3], [4,5,6],
[], [7,8,9], None, [10]]` — flattens to exactly the definition and
repetition levels documented in `src/lib.rs` and to the value sequence
`0..10`, and reconstructing from those levels and values returns exactly
the original 8 top-level entries: the two absent records (indices 1 and
6) come back as `none`, the present-but-empty list (index 4) as
`some []`, and record 2 keeps its single internal `none`. -/
theorem c2_nested_roundtrip :
    reconstructNested (flattenNested nestedRecords).1
        (flattenNested nestedRecords).2 = nestedRecords ∧
    (flattenNested nestedRecords).1 = nestedExpectedLevels ∧
    (flattenNested nestedRecords).2 = [0, 1, 2, 3, 4, 5, 6, 7, 8, 9, 10] ∧
    toListArray nestedRecords = pyarrow_nested_optional_col0 ∧
    nestedRecords.length = 8 ∧
    nestedRecords[1]? = some none ∧
    nestedRecords[6]? = some none ∧
    nestedRecords[4]? = some (some []) ∧
    nestedRecords[2]? = some (some [some 2, none, some 3]) := by
  refine ⟨?_, ?_, ?_, ?_, ?_, ?_, ?_, ?_, ?_⟩ <;> rfl

/-- C7: the required Int32 column `[4,5,6,7,2,3,0,1]` of
`alltypes_plain(0)` round-trips through Plain encode/decode to the
identical sequence, and the single-pass statistics scan computes
`null_count = 0`, `min = 0`, `max = 7`, matching the statistics recorded
for this column in `alltypes_statistics(0)`. -/
theorem c7_int32_roundtrip_and_stats :
    decodePlainI32 (encodePlainI32 alltypesCol0Values) 8 =
      alltypesCol0Values ∧
    alltypes_plain_col0 = PArray.int32 (alltypesCol0Values.map some) ∧
    computeStats (alltypesCol0Values.map some) = (0, some 0, some 7) ∧
    alltypes_statistics_col0 =
      Stats.int32 ⟨descriptor_i32, some 0, none, some 0, some 7⟩ := by
  refine ⟨?_, ?_, ?_, ?_⟩ <;> rfl

/-- C8: the optional Int64 column `[Some 0, Some 1, None, Some 3, None,
Some 5, Some 6, Some 7, None, Some 9]` of `pyarrow_optional(0)` yields
computed statistics `null_count = 3`, `min = Some 0`, `max = Some 9`,
matching the fixture `pyarrow_optional_stats(0)`, and its definition
levels are 0 exactly at the three `None` positions 2, 4 and 8. -/
theorem c8_optional_int64_stats_and_levels :
    computeStats pyarrowOptionalCol0Values = (3, some 0, some 9) ∧
    pyarrow_optional_stats_col0 =
      (some ((computeStats pyarrowOptionalCol0Values).1 : Int),
        Value.int64 (computeStats pyarrowOptionalCol0Values).2.1,
        Value.int64 (computeStats pyarrowOptionalCol0Values).2.2) ∧
    pyarrow_optional_col0 = PArray.int64 pyarrowOptionalCol0Values ∧
    defLevelsOptional pyarrowOptionalCol0Values =
      [1, 1, 0, 1, 0, 1, 1, 1, 0, 1] ∧
    (List.range 10).filter
      (fun i => (defLevelsOptional pyarrowOptionalCol0Values).getD i 1 == 0) =
      [2, 4, 8] ∧
    ((List.range 10).all fun i =>
      ((defLevelsOptional pyarrowOptionalCol0Values).getD i 1 == 0) ==
        (pyarrowOptionalCol0Values.getD i (some 0) == none)) = true := by
  refine ⟨?_, ?_, ?_, ?_, ?_, ?_⟩ <;> rfl

end Parquet2
